import Mathlib

/-!
Verification development for the estaudio-rs audio engine.

The Rust sources are shallowly embedded: interleaved f32 PCM samples are
modelled as rationals, u64/usize counters as naturals (the audio counters
never approach 2^64 in any reachable execution modelled here), i64
bookkeeping as integers, and fallible functions return `Except`.
Calls into the miniaudio / signalsmith FFI are modelled at their documented
interface behaviour; each such definition carries a doc comment saying what
external behaviour it stands for.
-/

deriving instance DecidableEq for Except

namespace EstAudio

/-- f32 `clamp(lo, hi)` on the rational model of samples. -/
def clampQ (x lo hi : ℚ) : ℚ := max lo (min x hi)

/-- `utils::array_fast_copy_f32`: `dst[dst_offset+i] := src[src_offset+i]` for
`i < length`.  The SIMD variants agree with the scalar fallback; out-of-bounds
indices abort in Rust, and every call site modelled here stays in bounds. -/
def array_fast_copy_f32 (src dst : List ℚ) (src_offset dst_offset length : ℕ) : List ℚ :=
  (List.range dst.length).map fun j =>
    if dst_offset ≤ j ∧ j < dst_offset + length then src.getD (src_offset + (j - dst_offset)) 0
    else dst.getD j 0

/-- `utils::array_fast_add_value_f32`: `dst[j] += src[j]` for `j < length`. -/
def array_fast_add_value_f32 (src dst : List ℚ) (length : ℕ) : List ℚ :=
  (List.range dst.length).map fun j =>
    if j < length then dst.getD j 0 + src.getD j 0 else dst.getD j 0

/-- `utils::array_fast_set_value_f32`: set every element of the array. -/
def array_fast_set_value_f32 (arr : List ℚ) (value : ℚ) : List ℚ :=
  arr.map fun _ => value

/-- `device::audioreader::AudioReaderError` (the variants exercised here). -/
inductive AudioReaderError where
  | InvalidPCMLength
  | InvalidOperation
  | PCMLengthTooLarge
  | BufferTooSmall (expected actual : ℕ)
  | SeekError (code : ℤ)
deriving Repr, DecidableEq

/-- `device::audioreader::AudioReader`: a finite seekable source of interleaved
f32 frames.  `data` is the decoded stream (`pcm_length * channels` samples);
the decoder / ma_audio_buffer behind the FFI is external, so `data` stands for
whatever it decodes to. -/
structure AudioReader where
  data : List ℚ
  sample_rate : ℕ
  channels : ℕ
  pcm_length : ℕ
  position : ℕ
deriving Repr, DecidableEq

/-- `AudioReader::available_frames` (`pcm_length - position`, u64 subtraction;
every reachable reader state keeps `position ≤ pcm_length`). -/
def AudioReader.available_frames (r : AudioReader) : ℕ :=
  r.pcm_length - r.position

/-- `AudioReader::read`: rejects `size == 0` and undersized buffers, then asks
the miniaudio decoder / audio buffer for `size` frames.  The FFI read is
modelled as producing `min size (pcm_length - position)` frames of the decoded
stream (a decoder at position `p` returns the next frames until end of
stream), written at the front of the buffer; `position` advances by the frames
actually read. -/
def AudioReader.read (r : AudioReader) (buffer : List ℚ) (size : ℕ) :
    Except AudioReaderError (AudioReader × List ℚ × ℕ) :=
  if size = 0 then .error .InvalidPCMLength
  else
    let expected_array_size := size * r.channels
    if buffer.length < expected_array_size then
      .error (.BufferTooSmall expected_array_size buffer.length)
    else
      let frames_readed := min size (r.pcm_length - r.position)
      let buffer' := array_fast_copy_f32 r.data buffer (r.position * r.channels) 0
        (frames_readed * r.channels)
      .ok ({ r with position := r.position + frames_readed }, buffer', frames_readed)

/-- `AudioReader::seek`: the miniaudio seek succeeds for frame indices within
the stream (modelled as `position ≤ pcm_length`) and then the reader's
`position` is set. -/
def AudioReader.seek (r : AudioReader) (position : ℕ) :
    Except AudioReaderError AudioReader :=
  if position ≤ r.pcm_length then .ok { r with position := position }
  else .error (.SeekError (-14))

/-- `effects::volume::AudioVolumeError`. -/
inductive AudioVolumeError where
  | InitializationFailed (code : ℤ)
  | InvalidChannels (channels : ℕ)
  | ProcessFailed (code : ℤ)
  | BufferSizeMismatch (expected actual : ℕ)
deriving Repr, DecidableEq

/-- `effects::volume::AudioVolume` (the `ma_gainer` FFI state reduces to the
master volume it was given). -/
structure AudioVolume where
  channels : ℕ
  volume : ℚ
deriving Repr, DecidableEq

/-- `AudioVolume::set_volume`: clamps to [0,1] and stores. -/
def AudioVolume.set_volume (g : AudioVolume) (volume : ℚ) : AudioVolume :=
  { g with volume := clampQ volume 0 1 }

/-- `AudioVolume::process`: size check, then the `ma_gainer` FFI call, which
with a master volume `v` writes `output[j] := v * input[j]` for the first
`frame_count * channels` samples (the rest of the output is untouched). -/
def AudioVolume.process (g : AudioVolume) (input output : List ℚ) (frame_count : ℕ) :
    Except AudioVolumeError (List ℚ) :=
  let expected_array_size := frame_count * g.channels
  if input.length < expected_array_size ∨ output.length < expected_array_size then
    .error (.BufferSizeMismatch expected_array_size input.length)
  else
    .ok ((List.range output.length).map fun j =>
      if j < expected_array_size then g.volume * input.getD j 0 else output.getD j 0)

/-- `effects::panner::AudioPannerError`. -/
inductive AudioPannerError where
  | InitializationFailed (code : ℤ)
  | InvalidChannels (channels : ℕ)
  | ProcessFailed (code : ℤ)
  | BufferSizeMismatch (expected actual : ℕ)
deriving Repr, DecidableEq

/-- `effects::panner::AudioPanner` (the `ma_panner` FFI state reduces to the
pan value it was given; the panner is configured in miniaudio's default
balance mode). -/
structure AudioPanner where
  channels : ℕ
  pan : ℚ
deriving Repr, DecidableEq

/-- `AudioPanner::set_pan`: clamps to [-1,1] and stores. -/
def AudioPanner.set_pan (p : AudioPanner) (pan : ℚ) : AudioPanner :=
  { p with pan := clampQ pan (-1) 1 }

/-- One sample of the `ma_panner` balance-mode transform for a stereo stream:
pan `0` is the identity; positive pan attenuates the left (even-index)
samples, negative pan the right ones.  Non-stereo streams pass through.
Every claim below instantiates `pan = 0`. -/
def panSample (pan : ℚ) (channels j : ℕ) (x : ℚ) : ℚ :=
  if channels = 2 then
    if 0 < pan ∧ j % 2 = 0 then (1 - pan) * x
    else if pan < 0 ∧ j % 2 = 1 then (1 + pan) * x
    else x
  else x

/-- `AudioPanner::process`: size check, then the `ma_panner` FFI call writing
the panned first `frame_count * channels` samples into the output. -/
def AudioPanner.process (p : AudioPanner) (input output : List ℚ) (frame_count : ℕ) :
    Except AudioPannerError (List ℚ) :=
  let expected_array_size := frame_count * p.channels
  if input.length < expected_array_size ∨ output.length < expected_array_size then
    .error (.BufferSizeMismatch expected_array_size input.length)
  else
    .ok ((List.range output.length).map fun j =>
      if j < expected_array_size then panSample p.pan p.channels j (input.getD j 0)
      else output.getD j 0)

/-- `effects::resampler::AudioResamplerError`. -/
inductive AudioResamplerError where
  | InitializationFailed (code : ℤ)
  | InvalidChannels (channels : ℕ)
  | InvalidSampleRate (sample_rate : ℕ)
  | InvalidOperation (code : ℤ)
  | ProcessFailed (code : ℤ)
  | BufferSizeMismatch (expected actual : ℕ)
deriving Repr, DecidableEq

/-- `effects::resampler::AudioResampler` (the `ma_resampler` FFI state reduces
to the source and target rates it is configured with). -/
structure AudioResampler where
  channels : ℕ
  sample_rate : ℕ
  target_sample_rate : ℕ
deriving Repr, DecidableEq

/-- `AudioResampler::bypass_mode`: source and target rates agree. -/
def AudioResampler.bypass_mode (rs : AudioResampler) : Bool :=
  rs.sample_rate == rs.target_sample_rate

/-- `AudioResampler::set_target_sample_rate`. -/
def AudioResampler.set_target_sample_rate (rs : AudioResampler) (target : ℕ) :
    AudioResampler :=
  { rs with target_sample_rate := target }

/-- `AudioResampler::get_required_input`: the
`ma_resampler_get_required_input_frame_count` FFI call.  With equal rates the
linear resampler is 1:1, so it returns the output count; otherwise it is
modelled from the spec (§8: `required_input(out) ≈ out × source/target`) as the
rounded-up ratio (the exact fractional bookkeeping lives in miniaudio). -/
def AudioResampler.get_required_input (rs : AudioResampler) (output_frame_count : ℕ) :
    Except AudioResamplerError ℕ :=
  if rs.bypass_mode then .ok output_frame_count
  else .ok ((output_frame_count * rs.sample_rate + rs.target_sample_rate - 1) /
      rs.target_sample_rate)

/-- `AudioResampler::process`: in bypass mode the Rust function returns
`output_frame_count` without touching either buffer; otherwise size checks and
the `ma_resampler_process_pcm_frames` FFI call, whose resampled contents are
external (modelled as passing the input prefix through) and which produces the
expected output count. -/
def AudioResampler.process (rs : AudioResampler) (input : List ℚ) (input_frame_count : ℕ)
    (output : List ℚ) (output_frame_count : ℕ) :
    Except AudioResamplerError (List ℚ × ℕ) :=
  if rs.bypass_mode then .ok (output, output_frame_count)
  else if input.length < input_frame_count * rs.channels then
    .error (.BufferSizeMismatch input.length (input_frame_count * rs.channels))
  else if output.length < output_frame_count * rs.channels then
    .error (.BufferSizeMismatch output.length (output_frame_count * rs.channels))
  else
    .ok (array_fast_copy_f32 input output 0 0 (output_frame_count * rs.channels),
      output_frame_count)

/-- `effects::fx::AudioFXError` (the variants exercised here). -/
inductive AudioFXError where
  | NotEnabled
  | InvalidConfiguration
  | InvalidInputSize (expected actual : ℕ)
  | InvalidOutputSize (expected actual : ℕ)
  | InvalidFrameCount
deriving Repr, DecidableEq

/-- `effects::fx::AudioFX`: tempo/pitch bookkeeping around the external
signalsmith stretch kernel.  `input_latency`/`output_latency` model the
latencies the kernel reports (`stretch.input_latency()` is positive for the
default preset). -/
structure AudioFX where
  channels : ℕ
  sample_rate : ℕ
  frame_available : ℤ
  tempo : ℚ
  octave : ℚ
  input_latency : ℕ
  output_latency : ℕ
deriving Repr, DecidableEq

/-- `AudioFX::tempo_bypass`: tempo is exactly 1.0. -/
def AudioFX.tempo_bypass (fx : AudioFX) : Bool :=
  fx.tempo == 1

/-- `AudioFX::get_required_input`: rejects 0, identity in bypass, otherwise
`(output_frame_count as f32 * tempo) as u64` (truncating cast). -/
def AudioFX.get_required_input (fx : AudioFX) (output_frame_count : ℕ) :
    Except AudioFXError ℕ :=
  if output_frame_count = 0 then .error .InvalidFrameCount
  else if fx.tempo_bypass then .ok output_frame_count
  else .ok (((output_frame_count : ℚ) * fx.tempo).floor.toNat)

/-- `AudioFX::get_input_latency` (`stretch.input_latency()`). -/
def AudioFX.get_input_latency (fx : AudioFX) : ℕ := fx.input_latency

/-- `AudioFX::get_output_latency` (`stretch.output_latency()`). -/
def AudioFX.get_output_latency (fx : AudioFX) : ℕ := fx.output_latency

/-- `AudioFX::pre_process`: size check, then `stretch.reset()` and
`stretch.process_raw(input, n, [], 0)` (kernel-internal), and
`frame_available := n`. -/
def AudioFX.pre_process (fx : AudioFX) (input : List ℚ) (frame_count : ℕ) :
    Except AudioFXError AudioFX :=
  if input.length < frame_count * fx.channels then
    .error (.InvalidInputSize (frame_count * fx.channels) input.length)
  else
    .ok { fx with frame_available := (frame_count : ℤ) }

/-- `AudioFX::process`: size checks, then `stretch.process_raw`, which fills
the first `output_frame_count * channels` output samples with kernel-stretched
audio.  The stretched samples themselves are external to this repository; the
model passes the input prefix through. -/
def AudioFX.process (fx : AudioFX) (input : List ℚ) (input_frame_count : ℕ)
    (output : List ℚ) (output_frame_count : ℕ) :
    Except AudioFXError (List ℚ) :=
  if input.length < input_frame_count * fx.channels then
    .error (.InvalidInputSize (input_frame_count * fx.channels) input.length)
  else if output.length < output_frame_count * fx.channels then
    .error (.InvalidOutputSize (output_frame_count * fx.channels) output.length)
  else
    .ok (array_fast_copy_f32 input output 0 0 (output_frame_count * fx.channels))

/-- `channel::AudioChannelError`. -/
inductive AudioChannelError where
  | ReadError
  | SeekOutOfBounds
  | SeekFailed
  | AudioFXError (e : AudioFXError)
  | AudioReaderError (e : AudioReaderError)
  | AudioPannerError (e : AudioPannerError)
  | AudioVolumeError (e : AudioVolumeError)
  | AudioResamplerError (e : AudioResamplerError)
deriving Repr, DecidableEq

/-- `channel::inner::AudioChannelInner`.  The `Arc`/atomic wrappers reduce to
plain fields in this sequential model; `spatializer` and `dsp_callback`
record presence only: a DSP callback is an `fn(&[f32], u64)` and cannot mutate
engine state, and the spatializer transform is the external `ma_spatializer`
(the claims below pass no listener, so its branch is never taken). -/
structure AudioChannelInner where
  ref_id : ℕ
  marked_as_deleted : Bool
  reader : AudioReader
  gainer : AudioVolume
  panner : AudioPanner
  resampler : AudioResampler
  fx : Option AudioFX
  playing : Bool
  is_looping : Bool
  position : ℕ
  spatializer : Bool
  dsp_callback : Bool
deriving Repr, DecidableEq

/-- `AudioChannelInner::read_pcm_frames`, translated line by line from
`src/channel/inner.rs`.  Returns the updated channel, the output buffer, the
temp buffer and `frames_readed`. -/
def AudioChannelInner.read_pcm_frames (ch₀ : AudioChannelInner) (listener : Option Unit)
    (output₀ temp₀ : List ℚ) (frame_count : ℕ) :
    Except AudioChannelError (AudioChannelInner × List ℚ × List ℚ × ℕ) := do
  let mut ch := ch₀
  let mut output := output₀
  let mut temp := temp₀
  if !ch.playing then
    return (ch, output, temp, 0)
  let required_frame_count := (ch.resampler.get_required_input frame_count).toOption.getD 0
  let mut frames_readed : ℕ := 0
  match ch.fx with
  | some fx₀ =>
    let mut fx := fx₀
    let mut target_frame_count := required_frame_count
    let mut readed_frame_count := required_frame_count
    if !fx.tempo_bypass then
      target_frame_count := (fx.get_required_input target_frame_count).toOption.getD 0
    let available_frames := ch.reader.available_frames
    if available_frames > 0 then
      match ch.reader.read output target_frame_count with
      | .error e => throw (.AudioReaderError e)
      | .ok (r', buf', n) =>
        ch := { ch with reader := r' }
        output := buf'
        target_frame_count := n
        if target_frame_count ≥ available_frames then
          fx := { fx with frame_available := fx.frame_available + (fx.get_output_latency : ℤ) }
        else
          fx := { fx with frame_available := fx.frame_available + (readed_frame_count : ℤ) }
    if fx.frame_available > 0 then
      match fx.process output target_frame_count temp readed_frame_count with
      | .error e => throw (.AudioFXError e)
      | .ok temp' => temp := temp'
      fx := { fx with frame_available := fx.frame_available - (readed_frame_count : ℤ) }
      if fx.frame_available < 0 then
        -- Rust: `readed_frame_count = (readed_frame_count as i64 + fx.frame_available) as u64`
        -- (non-negative in every reachable state, since the subtraction above
        -- is what made `frame_available` negative)
        readed_frame_count := ((readed_frame_count : ℤ) + fx.frame_available).toNat
        fx := { fx with frame_available := 0 }
    else
      readed_frame_count := 0
    output := array_fast_copy_f32 temp output 0 0 (readed_frame_count * ch.reader.channels)
    frames_readed := readed_frame_count
    ch := { ch with fx := some fx }
  | none =>
    match ch.reader.read output required_frame_count with
    | .error e => throw (.AudioReaderError e)
    | .ok (r', buf', n) =>
      ch := { ch with reader := r' }
      output := buf'
      frames_readed := n
  if !ch.resampler.bypass_mode then
    match ch.resampler.process output required_frame_count temp frame_count with
    | .error e => throw (.AudioResamplerError e)
    | .ok (temp', resampler_frame_count) =>
      temp := temp'
      output := array_fast_copy_f32 temp output 0 0
        (resampler_frame_count * ch.reader.channels)
      frames_readed := resampler_frame_count
  match ch.gainer.process output temp frames_readed with
  | .error e => throw (.AudioVolumeError e)
  | .ok temp' => temp := temp'
  match ch.panner.process temp output frames_readed with
  | .error e => throw (.AudioPannerError e)
  | .ok out' => output := out'
  ch := { ch with position := ch.position + frames_readed }
  if frames_readed < frame_count then
    if ch.is_looping then
      match ch.reader.seek 0 with
      | .error e => throw (.AudioReaderError e)
      | .ok r' => ch := { ch with reader := r' }
    else
      ch := { ch with playing := false }
  -- dsp_callback (if set) observes (output, frames_readed) but cannot mutate state
  if ch.spatializer ∧ listener.isSome then
    -- spatializer.process(listener, output -> temp) then copy temp -> output;
    -- the 3-D transform itself is the external ma_spatializer
    temp := array_fast_copy_f32 output temp 0 0 (frames_readed * ch.reader.channels)
    output := array_fast_copy_f32 temp output 0 0 (frames_readed * ch.reader.channels)
  return (ch, output, temp, frames_readed)

/-- `AudioChannelInner::seek`, translated from `src/channel/inner.rs`:
bounds check, store position, seek the reader, and when FX is enabled with
positive input latency, read `latency` frames into a scratch of
`latency * 2` samples and feed them to `AudioFX::pre_process`. -/
def AudioChannelInner.seek (ch₀ : AudioChannelInner) (position : ℕ) :
    Except AudioChannelError AudioChannelInner := do
  if position ≥ ch₀.reader.pcm_length then
    throw .SeekOutOfBounds
  let mut ch := { ch₀ with position := position }
  match ch.reader.seek position with
  | .error e => throw (.AudioReaderError e)
  | .ok r' => ch := { ch with reader := r' }
  match ch.fx with
  | some fx₀ =>
    let latency := fx₀.get_input_latency
    if latency > 0 then
      let output := List.replicate (latency * 2) (0 : ℚ)
      match ch.reader.read output latency with
      | .error e => throw (.AudioReaderError e)
      | .ok (r', buf', _) =>
        ch := { ch with reader := r' }
        match fx₀.pre_process buf' latency with
        | .error e => throw (.AudioFXError e)
        | .ok fx' => ch := { ch with fx := some fx' }
  | none => pure ()
  return ch

/-- `AudioChannel::play`: set `playing := true`; when `position == 0`,
run `seek(0)` to pre-warm the FX. -/
def AudioChannel.play (ch : AudioChannelInner) : Except AudioChannelError AudioChannelInner :=
  let ch := { ch with playing := true }
  if ch.position = 0 then ch.seek 0 else .ok ch

/-- `AudioChannel::stop`: clear the playing flag; position is retained. -/
def AudioChannel.stop (ch : AudioChannelInner) : AudioChannelInner :=
  { ch with playing := false }

/-- `AudioChannel::set_looping`. -/
def AudioChannel.set_looping (ch : AudioChannelInner) (looping : Bool) : AudioChannelInner :=
  { ch with is_looping := looping }

/-- `AudioChannel::seek`: the handle first checks `position < pcm_length`
against its cached length and then calls the inner seek (which repeats the
check); the cached `pcm_length` equals `reader.pcm_length` by construction. -/
def AudioChannel.seek (ch : AudioChannelInner) (position : ℕ) :
    Except AudioChannelError AudioChannelInner :=
  if position ≥ ch.reader.pcm_length then .error .SeekOutOfBounds
  else ch.seek position

/-- `impl Drop for AudioChannel` (handle drop): mark the shared inner node
deleted and clear its playing flag. -/
def AudioChannel.drop (ch : AudioChannelInner) : AudioChannelInner :=
  { ch with marked_as_deleted := true, playing := false }

/-- The channel operations claim C1 quantifies over. -/
inductive ChannelOp where
  | play
  | stop
  | seek (p : ℕ)
  | set_looping (b : Bool)
  | read (frame_count : ℕ)
deriving Repr, DecidableEq

/-- Run one public channel operation.  `read` supplies zeroed output and temp
buffers of `frame_count * channels` samples each (as `read_simple` does, up to
its fixed 8192 capacity) and passes no listener, like the
`AudioReaderHandler` impl. -/
def applyChannelOp (ch : AudioChannelInner) : ChannelOp → Except AudioChannelError AudioChannelInner
  | .play => AudioChannel.play ch
  | .stop => .ok (AudioChannel.stop ch)
  | .seek p => AudioChannel.seek ch p
  | .set_looping b => .ok (AudioChannel.set_looping ch b)
  | .read frame_count =>
    let buf := List.replicate (frame_count * ch.reader.channels) (0 : ℚ)
    (ch.read_pcm_frames none buf buf frame_count).map (·.1)

/-- Run a sequence of channel operations left to right. -/
def runChannelOps (ch : AudioChannelInner) (ops : List ChannelOp) :
    Except AudioChannelError AudioChannelInner :=
  ops.foldlM applyChannelOp ch

/-- The amended C1 invariant: FX disabled, resampler bypassed, looping off,
the channel's position mirrors the reader's, and the reader is in bounds. -/
def ChannelInv (ch : AudioChannelInner) : Prop :=
  ch.fx = none ∧ ch.resampler.bypass_mode = true ∧ ch.is_looping = false ∧
  ch.position = ch.reader.position ∧ ch.reader.position ≤ ch.reader.pcm_length

/-- `mixer::inner::AudioChannelEntry`: a channel child with its scheduling
window. -/
structure AudioChannelEntry where
  channel : AudioChannelInner
  delay : Option ℕ
  duration : Option ℕ
deriving Repr, DecidableEq

/-- The scalar/effect part of `mixer::inner::AudioMixerInner` (everything but
the recursive child lists). -/
structure MixerFlat where
  ref_id : ℕ
  marked_as_deleted : Bool
  is_playing : Bool
  max_length : ℕ
  mixer_position : ℕ
  is_infinite : Bool
  channel_count : ℕ
  sample_rate : ℕ
  buffer : List ℚ
  intermediate_buffer : List ℚ
  resampler : AudioResampler
  panner : AudioPanner
  volume : AudioVolume
  fx : Option AudioFX
  dsp_callback : Bool
deriving Repr, DecidableEq

mutual
/-- `mixer::inner::AudioMixerInner`: the flat state plus the ordered channel
children and the ordered mixer children (`Vec<AudioMixerEntry>` becomes the
mutually inductive list so that recursion over nested mixers is
structural). -/
inductive AudioMixerInner where
  | mk : MixerFlat → List AudioChannelEntry → AudioMixerEntryList → AudioMixerInner

/-- The `Vec<AudioMixerEntry>` of a mixer: each entry is a nested mixer with
its `delay`/`duration` window. -/
inductive AudioMixerEntryList where
  | nil : AudioMixerEntryList
  | cons : AudioMixerInner → Option ℕ → Option ℕ → AudioMixerEntryList → AudioMixerEntryList
end

/-- The flat part of a mixer. -/
def AudioMixerInner.flat : AudioMixerInner → MixerFlat
  | .mk f _ _ => f

/-- The channel children of a mixer. -/
def AudioMixerInner.chans : AudioMixerInner → List AudioChannelEntry
  | .mk _ c _ => c

/-- The mixer children of a mixer. -/
def AudioMixerInner.subs : AudioMixerInner → AudioMixerEntryList
  | .mk _ _ s => s

/-- `ref_id` of a mixer. -/
def AudioMixerInner.ref_id (m : AudioMixerInner) : ℕ := m.flat.ref_id

/-- `is_infinite` of a mixer. -/
def AudioMixerInner.is_infinite (m : AudioMixerInner) : Bool := m.flat.is_infinite

/-- `max_length` of a mixer. -/
def AudioMixerInner.max_length (m : AudioMixerInner) : ℕ := m.flat.max_length

/-- `mixer_position` of a mixer. -/
def AudioMixerInner.mixer_position (m : AudioMixerInner) : ℕ := m.flat.mixer_position

/-- `is_playing` of a mixer. -/
def AudioMixerInner.is_playing (m : AudioMixerInner) : Bool := m.flat.is_playing

/-- Append a nested-mixer entry (Vec::push). -/
def AudioMixerEntryList.push : AudioMixerEntryList → AudioMixerInner → Option ℕ → Option ℕ →
    AudioMixerEntryList
  | .nil, m, d, du => .cons m d du .nil
  | .cons m' d' du' rest, m, d, du => .cons m' d' du' (rest.push m d du)

/-- The running state of `mix_children_into_buffer`'s loops: the rebuilt entry
list, the mixer's accumulator (`self.buffer`), `self.intermediate_buffer`, the
caller's `temp_buffer`, and `mixed_sources`. -/
structure MixLoopState where
  entries : List AudioChannelEntry
  buffer : List ℚ
  intermediate : List ℚ
  temp : List ℚ
  mixed_sources : ℕ
deriving Repr, DecidableEq

/-- One iteration of the channel loop of
`AudioMixerInner::mix_children_into_buffer` (`src/mixer/inner.rs`,
the `for mx_channel in &mut self.channels` body).  `try_lock_poison`
always succeeds in this sequential model (the claims assume acquirable
locks). -/
def mixChannelEntryStep (mixer_position frame_count channel_count : ℕ)
    (s : MixLoopState) (e : AudioChannelEntry) : Except AudioChannelError MixLoopState :=
  let delay := e.delay.getD 0
  let duration := e.duration.getD e.channel.reader.pcm_length
  if mixer_position < delay ∨ mixer_position ≥ delay + duration then
    .ok { s with entries := s.entries ++ [e] }
  else
    let remaining_frames := (delay + duration) - mixer_position
    let read_frames := min frame_count remaining_frames
    match e.channel.read_pcm_frames none s.intermediate s.temp read_frames with
    | .error err => .error err
    | .ok (ch', inter', temp', channel_frame_count) =>
      let s := { s with
        intermediate := inter'
        temp := temp'
        entries := s.entries ++ [{ e with channel := ch' }] }
      if channel_frame_count > 0 then
        .ok { s with
          mixed_sources := s.mixed_sources + 1
          buffer := array_fast_add_value_f32 s.intermediate s.buffer
            (channel_frame_count * channel_count) }
      else
        .ok s

/-- The first phase of `mix_children_into_buffer`: clear the first
`frame_count * channel_count` accumulator samples, then run the channel
loop. -/
def mixChannelsPhase (flat : MixerFlat) (chans : List AudioChannelEntry)
    (temp_buffer : List ℚ) (frame_count : ℕ) : Except AudioChannelError MixLoopState :=
  let sample_count := frame_count * flat.channel_count
  let buffer₀ := (List.range flat.buffer.length).map fun j =>
    if j < sample_count then (0 : ℚ) else flat.buffer.getD j 0
  chans.foldlM (mixChannelEntryStep flat.mixer_position frame_count flat.channel_count)
    { entries := [], buffer := buffer₀, intermediate := flat.intermediate_buffer,
      temp := temp_buffer, mixed_sources := 0 }

mutual
/-- `AudioMixerInner::read_pcm_frames`, translated from `src/mixer/inner.rs`.
The two calls to `mix_children_into_buffer` are inlined (channel phase via
`mixChannelsPhase`, nested-mixer phase via `mixSubsLoop`, then
`mixer_position += frame_count` — the callee's own `frame_count` argument)
so that the recursion over nested mixers is structural.  The Rust function
maps child errors into `String`; the model keeps the underlying
`AudioChannelError`. -/
def AudioMixerInner.read_pcm_frames : AudioMixerInner → Option Unit → List ℚ → List ℚ → ℕ →
    Except AudioChannelError (AudioMixerInner × List ℚ × List ℚ × ℕ)
  | .mk flat₀ chans₀ subs₀, _spatialization, buffer₀, temp_buffer₀, frame_count => do
    let mut flat := flat₀
    let mut chans := chans₀
    let mut subs := subs₀
    let mut buffer := buffer₀
    let mut temp_buffer := temp_buffer₀
    if !flat.is_playing then
      return (.mk flat chans subs, buffer, temp_buffer, 0)
    let sample_count := frame_count * flat.channel_count
    let required_frame_count := (flat.resampler.get_required_input frame_count).toOption.getD 0
    let mut mixed_sources : ℕ := 0
    match flat.fx with
    | some fx₀ =>
      let mut fx := fx₀
      let mut target_frame_count := required_frame_count
      let mut readed_frame_count := required_frame_count
      if !fx.tempo_bypass then
        target_frame_count := (fx.get_required_input target_frame_count).toOption.getD 0
      let available_frames := flat.max_length - flat.mixer_position
      if available_frames > 0 then
        -- mixed_sources = self.mix_children_into_buffer(temp_buffer, target_frame_count)?
        let s ← mixChannelsPhase flat chans temp_buffer target_frame_count
        let (subs', b, i, t, ms) ← mixSubsLoop flat.mixer_position target_frame_count
          flat.channel_count s.buffer s.intermediate s.temp s.mixed_sources subs₀
        chans := s.entries
        subs := subs'
        flat := { flat with
          buffer := b
          intermediate_buffer := i
          mixer_position := flat.mixer_position + target_frame_count }
        temp_buffer := t
        mixed_sources := ms
        if target_frame_count ≥ available_frames then
          fx := { fx with frame_available := fx.frame_available + (fx.get_output_latency : ℤ) }
        else
          fx := { fx with frame_available := fx.frame_available + (readed_frame_count : ℤ) }
      if fx.frame_available > 0 then
        let temp' ← (fx.process flat.buffer target_frame_count temp_buffer
          readed_frame_count).mapError AudioChannelError.AudioFXError
        temp_buffer := temp'
        fx := { fx with frame_available := fx.frame_available - (readed_frame_count : ℤ) }
        if fx.frame_available < 0 then
          readed_frame_count := ((readed_frame_count : ℤ) + fx.frame_available).toNat
          fx := { fx with frame_available := 0 }
      else
        readed_frame_count := 0
      flat := { flat with
        buffer := array_fast_copy_f32 temp_buffer flat.buffer 0 0
          (readed_frame_count * flat.channel_count)
        fx := some fx }
    | none =>
      -- mixed_sources = self.mix_children_into_buffer(temp_buffer, required_frame_count)?
      let s ← mixChannelsPhase flat chans temp_buffer required_frame_count
      let (subs', b, i, t, ms) ← mixSubsLoop flat.mixer_position required_frame_count
        flat.channel_count s.buffer s.intermediate s.temp s.mixed_sources subs₀
      chans := s.entries
      subs := subs'
      flat := { flat with
        buffer := b
        intermediate_buffer := i
        mixer_position := flat.mixer_position + required_frame_count }
      temp_buffer := t
      mixed_sources := ms
    if mixed_sources > 0 then
      if !flat.resampler.bypass_mode then
        let (temp', _) ← (flat.resampler.process flat.buffer required_frame_count temp_buffer
          frame_count).mapError AudioChannelError.AudioResamplerError
        temp_buffer := temp'
        flat := { flat with
          buffer := array_fast_copy_f32 temp_buffer flat.buffer 0 0
            (frame_count * flat.channel_count) }
      let temp' ← (flat.panner.process flat.buffer temp_buffer
        frame_count).mapError AudioChannelError.AudioPannerError
      temp_buffer := temp'
      let buf' ← (flat.volume.process temp_buffer flat.buffer
        frame_count).mapError AudioChannelError.AudioVolumeError
      flat := { flat with buffer := buf' }
      -- Rust: `for i in 0..sample_count { buffer[i] /= mixed_sources as f32 }`
      -- divides the CALLER's buffer, which the copy right below overwrites
      buffer := (List.range buffer.length).map fun j =>
        if j < sample_count then buffer.getD j 0 / (mixed_sources : ℚ) else buffer.getD j 0
      buffer := array_fast_copy_f32 flat.buffer buffer 0 0 sample_count
    -- dsp_callback (if set) observes (buffer, frame_count); no state effect
    if flat.mixer_position ≥ flat.max_length ∧ !flat.is_infinite then
      flat := { flat with is_playing := false }
    return (.mk flat chans subs, buffer, temp_buffer, frame_count)

/-- The nested-mixer loop of `AudioMixerInner::mix_children_into_buffer`
(the `for mx_mixer in &mut self.mixers` body), threading
(buffer, intermediate, temp, mixed_sources) through the list. -/
def mixSubsLoop (mixer_position frame_count channel_count : ℕ)
    (buffer intermediate temp : List ℚ) (mixed_sources : ℕ) :
    AudioMixerEntryList →
    Except AudioChannelError (AudioMixerEntryList × List ℚ × List ℚ × List ℚ × ℕ)
  | .nil => .ok (.nil, buffer, intermediate, temp, mixed_sources)
  | .cons m d du rest =>
    let delay := d.getD 0
    let duration := du.getD m.max_length
    if mixer_position < delay ∨ mixer_position ≥ delay + duration then
      match mixSubsLoop mixer_position frame_count channel_count buffer intermediate temp
          mixed_sources rest with
      | .error e => .error e
      | .ok (rest', b, i, t, ms) => .ok (.cons m d du rest', b, i, t, ms)
    else
      let remaining_frames := (delay + duration) - mixer_position
      let read_frames := min frame_count remaining_frames
      match m.read_pcm_frames none intermediate temp read_frames with
      | .error e => .error e
      | .ok (m', inter', temp', mixer_frame_count) =>
        let buffer' := if mixer_frame_count > 0 then
            array_fast_add_value_f32 inter' buffer (mixer_frame_count * channel_count)
          else buffer
        let mixed' := if mixer_frame_count > 0 then mixed_sources + 1 else mixed_sources
        match mixSubsLoop mixer_position frame_count channel_count buffer' inter' temp'
            mixed' rest with
        | .error e => .error e
        | .ok (rest', b, i, t, ms) => .ok (.cons m' d du rest', b, i, t, ms)
end

mutual
/-- `AudioMixerInner::compute_mixer_length`: fold the channel children
(`max` of `delay + (duration ?? pcm_length)`, or-ing in `is_looping`), then
the nested mixers (recursing first, then `delay + (duration ?? nested)` and
or-ing in the recursively updated `is_infinite`), and store
`max_length`/`is_infinite`.  Returns the updated mixer and the length. -/
def computeMixerLength : AudioMixerInner → AudioMixerInner × ℕ
  | .mk flat chans subs =>
    let c := chans.foldl (fun (acc : ℕ × Bool) e =>
      let start_pcm := e.delay.getD 0
      let actual_length := e.channel.reader.pcm_length
      let duration := e.duration.getD actual_length
      (max acc.1 (start_pcm + duration), acc.2 || e.channel.is_looping)) (0, false)
    let (subs', acc') := computeSubsLength subs c
    (.mk { flat with max_length := acc'.1, is_infinite := acc'.2 } chans subs', acc'.1)

/-- The nested-mixer loop of `compute_mixer_length`, threading the
`(max_length, has_infinite)` accumulator. -/
def computeSubsLength : AudioMixerEntryList → ℕ × Bool → AudioMixerEntryList × ℕ × Bool
  | .nil, acc => (.nil, acc)
  | .cons m delay duration rest, acc =>
    let (m', nested_length) := computeMixerLength m
    let start_pcm := delay.getD 0
    let dur := duration.getD nested_length
    let acc' := (max acc.1 (start_pcm + dur), acc.2 || m'.is_infinite)
    let (rest', acc'') := computeSubsLength rest acc'
    (.cons m' delay duration rest', acc'')
end

/-- `AudioMixerInner::add_channel`: push the entry, then recompute the mixer
length. -/
def AudioMixerInner.add_channel (mx : AudioMixerInner) (channel : AudioChannelInner)
    (delay duration : Option ℕ) : AudioMixerInner :=
  match mx with
  | .mk flat chans subs =>
    (computeMixerLength (.mk flat (chans ++ [⟨channel, delay, duration⟩]) subs)).1

/-- `AudioMixerInner::add_mixer`: push the entry, then recompute the mixer
length. -/
def AudioMixerInner.add_mixer (mx : AudioMixerInner) (mixer : AudioMixerInner)
    (delay duration : Option ℕ) : AudioMixerInner :=
  match mx with
  | .mk flat chans subs =>
    (computeMixerLength (.mk flat chans (subs.push mixer delay duration))).1

/-- `u64::MAX`. -/
def u64MAX : ℕ := 2 ^ 64 - 1

/-- `AudioMixer::get_length`: `u64::MAX` for an infinite mixer, else
`max_length`. -/
def AudioMixer.get_length (mx : AudioMixerInner) : ℕ :=
  if mx.is_infinite then u64MAX else mx.max_length

/-- `impl Drop for AudioMixer`: clear `is_playing` and mark deleted. -/
def AudioMixer.drop : AudioMixerInner → AudioMixerInner
  | .mk flat chans subs =>
    .mk { flat with is_playing := false, marked_as_deleted := true } chans subs

/-- `device::AudioDeviceError` (the list-management variants). -/
inductive AudioDeviceError where
  | ChannelNotFound (id : ℕ)
  | MixerNotFound (id : ℕ)
  | ChannelAlreadyExists (id : ℕ)
  | MixerAlreadyExists (id : ℕ)
deriving Repr, DecidableEq

/-- `AudioDeviceInner::add_channel`: reject when some attached channel has
the same `ref_id`, else push. -/
def AudioDeviceInner.add_channel (channels : List AudioChannelInner)
    (channel : AudioChannelInner) : Except AudioDeviceError (List AudioChannelInner) :=
  if channels.any (fun c => c.ref_id == channel.ref_id) then
    .error (.ChannelAlreadyExists channel.ref_id)
  else
    .ok (channels ++ [channel])

/-- `AudioDeviceInner::remove_channel`: treats its argument as an INDEX into
the `Vec` (`if channel < channels.len() { channels.remove(channel) }`),
although both `AudioDevice::remove_channel` and
`AudioDevice::remove_channel_by_ref` pass a `ref_id` into it. -/
def AudioDeviceInner.remove_channel (channels : List AudioChannelInner) (channel : ℕ) :
    Except AudioDeviceError (List AudioChannelInner) :=
  if channel < channels.length then
    .ok (channels.eraseIdx channel)
  else
    .error (.ChannelNotFound channel)

/-- `AudioDeviceInner::add_mixer`: reject when some attached mixer has the
same `ref_id`, else push. -/
def AudioDeviceInner.add_mixer (mixers : List AudioMixerInner) (mixer : AudioMixerInner) :
    Except AudioDeviceError (List AudioMixerInner) :=
  if mixers.any (fun m => m.ref_id == mixer.ref_id) then
    .error (.MixerAlreadyExists mixer.ref_id)
  else
    .ok (mixers ++ [mixer])

/-- `AudioDeviceInner::remove_mixer`: scan for the first mixer whose
`ref_id` matches, remove it, else `MixerNotFound`. -/
def AudioDeviceInner.remove_mixer (mixers : List AudioMixerInner) (mixer : ℕ) :
    Except AudioDeviceError (List AudioMixerInner) :=
  match mixers.findIdx? (fun m => m.ref_id == mixer) with
  | some index => .ok (mixers.eraseIdx index)
  | none => .error (.MixerNotFound mixer)

/-- `AudioDevice::remove_channel_by_ref`: forwards the ref_id straight into
the index-based `AudioDeviceInner::remove_channel`. -/
def AudioDevice.remove_channel_by_ref (channels : List AudioChannelInner) (ref_id : ℕ) :
    Except AudioDeviceError (List AudioChannelInner) :=
  AudioDeviceInner.remove_channel channels ref_id

/-- `AudioDevice::remove_mixer_by_ref`: forwards the ref_id into the scanning
`AudioDeviceInner::remove_mixer`. -/
def AudioDevice.remove_mixer_by_ref (mixers : List AudioMixerInner) (ref_id : ℕ) :
    Except AudioDeviceError (List AudioMixerInner) :=
  AudioDeviceInner.remove_mixer mixers ref_id

/-- `AudioChannel::attach`: locks the device's channel list and pushes the
shared reference unconditionally — no duplicate check. -/
def AudioChannel.attach (device_channels : List AudioChannelInner)
    (ch : AudioChannelInner) : List AudioChannelInner :=
  device_channels ++ [ch]

/-! ### Concrete fixtures used by the witness and counterexample theorems -/

/-- A mono 44.1 kHz reader over the given decoded samples, at position 0. -/
def monoReader (d : List ℚ) : AudioReader :=
  { data := d, sample_rate := 44100, channels := 1, pcm_length := d.length, position := 0 }

/-- A mono channel as `AudioChannel::create_inner` builds it (volume 1, pan 0,
resampler at the reader's own rate so bypass, spatializer present, no FX),
with the playing flag already set. -/
def monoChannel (rid : ℕ) (d : List ℚ) : AudioChannelInner :=
  { ref_id := rid, marked_as_deleted := false, reader := monoReader d
    gainer := { channels := 1, volume := 1 }
    panner := { channels := 1, pan := 0 }
    resampler := { channels := 1, sample_rate := 44100, target_sample_rate := 44100 }
    fx := none, playing := true, is_looping := false, position := 0
    spatializer := true, dsp_callback := false }

/-- The `monoChannel` with looping switched on (claim C1's wrap scenario). -/
def loopChannel : AudioChannelInner :=
  { monoChannel 0 [0, 0] with is_looping := true }

/-- A 4-channel source with FX enabled whose stretch kernel reports one frame
of input latency (the signalsmith default presets report positive latency);
used by claim C7. -/
def quadFxChannel : AudioChannelInner :=
  { ref_id := 9, marked_as_deleted := false
    reader := { data := List.replicate 8 0
                sample_rate := 44100
                channels := 4
                pcm_length := 2
                position := 0 }
    gainer := { channels := 4, volume := 1 }
    panner := { channels := 4, pan := 0 }
    resampler := { channels := 4, sample_rate := 44100, target_sample_rate := 44100 }
    fx := some { channels := 4
                 sample_rate := 44100
                 frame_available := 0
                 tempo := 1
                 octave := 1
                 input_latency := 1
                 output_latency := 1 }
    playing := false, is_looping := false, position := 0
    spatializer := true, dsp_callback := false }

/-- A playing mono mixer flat state with unit volume, centred pan, bypassed
resampler, no FX and 8-sample scratch buffers. -/
def monoMixerFlat : MixerFlat :=
  { ref_id := 0, marked_as_deleted := false, is_playing := true
    max_length := 0, mixer_position := 0, is_infinite := false
    channel_count := 1, sample_rate := 44100
    buffer := List.replicate 8 0, intermediate_buffer := List.replicate 8 0
    resampler := { channels := 1, sample_rate := 44100, target_sample_rate := 44100 }
    panner := { channels := 1, pan := 0 }
    volume := { channels := 1, volume := 1 }
    fx := none, dsp_callback := false }

/-- A playing mixer with two playing children, each producing the constant
sample 1/2 for two frames (claim C3's failing input). -/
def mixerTwoChildren : AudioMixerInner :=
  ((AudioMixerInner.mk monoMixerFlat [] .nil).add_channel
    (monoChannel 1 [1/2, 1/2]) none none).add_channel (monoChannel 2 [1/2, 1/2]) none none

/-- A playing FX-enabled mixer with no children (claim C2's failing input):
`max_length == 0`, so `available_frames == 0` and the mixing (and position
advance) is skipped entirely. -/
def fxEmptyMixer : AudioMixerInner :=
  .mk { monoMixerFlat with
    fx := some { channels := 1
                 sample_rate := 44100
                 frame_available := 0
                 tempo := 1
                 octave := 1
                 input_latency := 0
                 output_latency := 0 } } [] .nil

/-- A mixer holding one looping channel child at delay 2 (length 3), for the
nested length computation of claim C9. -/
def loopingChildMixer : AudioMixerInner :=
  (AudioMixerInner.mk monoMixerFlat [] .nil).add_channel
    { monoChannel 3 [1, 1, 1] with is_looping := true } (some 2) none

/-- A mixer with a channel child (delay 1, length 2) and `loopingChildMixer`
nested at delay 10, for claim C9. -/
def nestedMixer : AudioMixerInner :=
  (AudioMixerInner.mk monoMixerFlat [⟨monoChannel 4 [1, 1], some 1, none⟩] .nil).add_mixer
    loopingChildMixer (some 10) none

/-- Modelled from the spec (§4.3 step 6): after the effect chain, "divide the
accumulator by `mixed_source_count` for headroom, clamp to [-1,1]".  Used to
compare the spec's words with what the source writes to the caller. -/
def mixerSpecFinalize (acc : List ℚ) (mixed_sources : ℕ) : List ℚ :=
  acc.map fun x => clampQ (x / (mixed_sources : ℚ)) (-1) 1

/-- The entries of a mixer-child list as a plain `List`, for stating
properties of the child loops. -/
def AudioMixerEntryList.toList : AudioMixerEntryList → List (AudioMixerInner × Option ℕ × Option ℕ)
  | .nil => []
  | .cons m d du rest => (m, d, du) :: rest.toList

/-- Maximum of a list of naturals, 0 for the empty list. -/
def listMax (l : List ℕ) : ℕ := l.foldl max 0

/-- A channel child's end on the mixer timeline:
`delay + (duration ?? reader.pcm_length)`. -/
def chanEnd (e : AudioChannelEntry) : ℕ :=
  e.delay.getD 0 + e.duration.getD e.channel.reader.pcm_length

/-- A mixer child's end on the mixer timeline:
`delay + (duration ?? compute_mixer_length(child))`. -/
def subEnd (p : AudioMixerInner × Option ℕ × Option ℕ) : ℕ :=
  p.2.1.getD 0 + p.2.2.getD (computeMixerLength p.1).2

/-! ### Theorems for the claims -/

/-- Claim C4: `remove_channel_by_ref(r)` is claimed to remove exactly the
channel whose `ref_id` is `r` and to fail iff no attached channel has that
`ref_id`.  The code instead treats `r` as a `Vec` index: on a device with one
attached channel of `ref_id` 7, removing ref 7 fails with `ChannelNotFound(7)`
(7 ≥ length 1), while removing "ref 0" — a ref_id no attached channel has —
silently deletes the ref-7 channel.  The mixer-side scan behaves as
claimed. -/
theorem c4_remove_channel_by_ref_is_index_based :
    AudioDevice.remove_channel_by_ref [monoChannel 7 [0, 0]] 7 =
      .error (.ChannelNotFound 7)
    ∧ (monoChannel 7 [0, 0]).ref_id = 7
    ∧ AudioDevice.remove_channel_by_ref [monoChannel 7 [0, 0]] 0 = .ok []
    ∧ AudioDevice.remove_mixer_by_ref [AudioMixerInner.mk monoMixerFlat [] .nil] 99 =
        .error (.MixerNotFound 99) :=
  ⟨by decide, by decide, by decide, rfl⟩

/-- Claim C3: with two children mixed (`mixed_sources = 2`), each contributing
the constant sample 1/2, the accumulator holds 1 per sample, and the spec says
the caller receives `clamp(acc / 2) = 1/2`.  The code divides the caller's
stale buffer and then overwrites it with the undivided, unclamped accumulator,
so the caller receives 1. -/
theorem c3_mixer_output_neither_divided_nor_clamped :
    (mixerTwoChildren.read_pcm_frames none (List.replicate 2 0) (List.replicate 8 0) 2).map
      (fun r => r.2.1) = .ok [1, 1]
    ∧ mixerSpecFinalize [1, 1] 2 = [1/2, 1/2]
    ∧ ([1, 1] : List ℚ) ≠ [1/2, 1/2] := by
  refine ⟨by with_unfolding_all decide, by with_unfolding_all decide, by with_unfolding_all decide⟩

/-- Claim C6 counterexample: `AudioChannel::attach` pushes unconditionally, so
attaching a channel to a device that already holds it makes the child appear
twice in the parent's list. -/
theorem c6_attach_creates_duplicate_child :
    (AudioChannel.attach [monoChannel 5 [0]] (monoChannel 5 [0])).count (monoChannel 5 [0]) = 2
    ∧ ¬(AudioChannel.attach [monoChannel 5 [0]] (monoChannel 5 [0])).count (monoChannel 5 [0]) ≤ 1 := by
  refine ⟨by decide, by decide⟩

/-- Claim C6 amended: of the attaching operations, the device-side
`add_channel`/`add_mixer` do preserve "a child appears at most once"
(they reject duplicate `ref_id`s), whereas `AudioChannel::attach` and the
mixer-side adds append unconditionally. -/
theorem c6_amended_device_adds_preserve_at_most_once
    (cs : List AudioChannelInner) (c : AudioChannelInner)
    (ms : List AudioMixerInner) (m : AudioMixerInner)
    (hc : (cs.map (fun x => x.ref_id)).Nodup)
    (hm : (ms.map (fun x => x.ref_id)).Nodup) :
    (∀ cs', AudioDeviceInner.add_channel cs c = .ok cs' →
      (cs'.map (fun x => x.ref_id)).Nodup)
    ∧ (∀ ms', AudioDeviceInner.add_mixer ms m = .ok ms' →
      (ms'.map (fun x => x.ref_id)).Nodup) := by
  constructor
  · intro cs' h
    unfold AudioDeviceInner.add_channel at h
    by_cases hd : cs.any (fun x => x.ref_id == c.ref_id)
    · simp [hd] at h
    · simp only [hd, Bool.false_eq_true, if_false, Except.ok.injEq] at h
      subst h
      simp only [List.map_append, List.nodup_append, List.map_singleton,
        List.nodup_singleton, true_and]
      refine ⟨hc, ?_⟩
      intro a ha hb
      simp only [List.any_eq_true, beq_iff_eq, not_exists, not_and] at hd
      simp only [List.mem_map] at ha
      obtain ⟨x, hx, rfl⟩ := ha
      simp only [List.mem_singleton] at hb
      exact hd x hx hb
  · intro ms' h
    unfold AudioDeviceInner.add_mixer at h
    by_cases hd : ms.any (fun x => x.ref_id == m.ref_id)
    · simp [hd] at h
    · simp only [hd, Bool.false_eq_true, if_false, Except.ok.injEq] at h
      subst h
      simp only [List.map_append, List.nodup_append, List.map_singleton,
        List.nodup_singleton, true_and]
      refine ⟨hm, ?_⟩
      intro a ha hb
      simp only [List.any_eq_true, beq_iff_eq, not_exists, not_and] at hd
      simp only [List.mem_map] at ha
      obtain ⟨x, hx, rfl⟩ := ha
      simp only [List.mem_singleton] at hb
      exact hd x hx hb

/-- Witness for the amended claim C6 at a concrete input. -/
theorem c6_amended_witness :
    ([monoChannel 5 [0]].map (fun x => x.ref_id)).Nodup :=
  (c6_amended_device_adds_preserve_at_most_once [] (monoChannel 5 [0]) []
    (AudioMixerInner.mk monoMixerFlat [] .nil) (by simp) (by simp)).1 _ rfl

/-- Claim C5: device `add_channel` succeeds (appending) exactly when no
attached channel shares the new `ref_id`, and fails with
`ChannelAlreadyExists(ref_id)` exactly when one does (the Rust function
returns before touching the list in that case); `add_mixer` is analogous
with `MixerAlreadyExists`. -/
theorem c5_device_add_rejects_exactly_duplicates
    (cs : List AudioChannelInner) (c : AudioChannelInner)
    (ms : List AudioMixerInner) (m : AudioMixerInner) :
    (AudioDeviceInner.add_channel cs c = .ok (cs ++ [c]) ↔
      ∀ x ∈ cs, x.ref_id ≠ c.ref_id)
    ∧ (AudioDeviceInner.add_channel cs c = .error (.ChannelAlreadyExists c.ref_id) ↔
      ∃ x ∈ cs, x.ref_id = c.ref_id)
    ∧ (AudioDeviceInner.add_mixer ms m = .ok (ms ++ [m]) ↔
      ∀ x ∈ ms, x.ref_id ≠ m.ref_id)
    ∧ (AudioDeviceInner.add_mixer ms m = .error (.MixerAlreadyExists m.ref_id) ↔
      ∃ x ∈ ms, x.ref_id = m.ref_id) := by
  unfold AudioDeviceInner.add_channel AudioDeviceInner.add_mixer
  by_cases hd : cs.any (fun x => x.ref_id == c.ref_id) <;>
    by_cases hm : ms.any (fun x => x.ref_id == m.ref_id) <;>
      simp_all [List.any_eq_true]

/-- Witness for claim C5 at a concrete input: adding to an empty device
succeeds, and adding the same channel again fails. -/
theorem c5_witness :
    AudioDeviceInner.add_channel [] (monoChannel 5 [0]) = .ok ([] ++ [monoChannel 5 [0]])
    ∧ AudioDeviceInner.add_channel [monoChannel 5 [0]] (monoChannel 5 [0]) =
      .error (.ChannelAlreadyExists 5) := by
  constructor
  · exact (c5_device_add_rejects_exactly_duplicates [] (monoChannel 5 [0]) []
      (AudioMixerInner.mk monoMixerFlat [] .nil)).1.mpr (by simp)
  · exact (c5_device_add_rejects_exactly_duplicates [monoChannel 5 [0]] (monoChannel 5 [0]) []
      (AudioMixerInner.mk monoMixerFlat [] .nil)).2.1.mpr ⟨monoChannel 5 [0], by simp, by decide⟩

/-- Claim C1 counterexample: a looping channel of `pcm_length = 2` pulled
three times for 2 frames ends with `position = 4 > 2`: the end-of-stream wrap
seeks the reader back to 0 but never resets the channel's `position`. -/
theorem c1_looping_wrap_pushes_position_past_length :
    (runChannelOps loopChannel [.read 2, .read 2, .read 2]).map (fun c => c.position) = .ok 4
    ∧ loopChannel.reader.pcm_length = 2
    ∧ ¬(4 ≤ 2) := by
  refine ⟨by decide, by decide, by decide⟩

/-- Claim C2 counterexample: a playing FX-enabled mixer with no children
(`max_length = 0`, so `available_frames = 0`) returns the full
`frame_count = 4` but advances `mixer_position` by 0, not 4 — the advance
lives inside `mix_children_into_buffer`, which the FX path skips when no
frames remain. -/
theorem c2_fx_mixer_skips_position_advance :
    fxEmptyMixer.is_playing = true
    ∧ (fxEmptyMixer.read_pcm_frames none (List.replicate 4 0) (List.replicate 8 0) 4).map
        (fun r => (r.2.2.2, r.1.mixer_position)) = .ok (4, 0)
    ∧ fxEmptyMixer.mixer_position = 0
    ∧ (0 : ℕ) ≠ 0 + 4 := by
  refine ⟨by decide, by decide, by decide, by decide⟩

/-- Claim C7 counterexample: a 4-channel channel with FX enabled and one frame
of stretch input latency fails `seek(0)` with `BufferTooSmall` even though
`0 < pcm_length` — the warm-up scratch is sized `latency * 2` samples, enough
only for ≤ 2 channels — so "seek succeeds exactly when p < pcm_length" does
not hold as stated. -/
theorem c7_quad_fx_seek_fails_in_bounds :
    AudioChannel.seek quadFxChannel 0 = .error (.AudioReaderError (.BufferTooSmall 4 2))
    ∧ 0 < quadFxChannel.reader.pcm_length
    ∧ AudioChannel.seek quadFxChannel 0 ≠ .error .SeekOutOfBounds := by
  refine ⟨by decide, by decide, by decide⟩

/-- Claim C10: dropping the public `AudioChannel`/`AudioMixer` handle marks
the shared inner node deleted AND clears its playing flag, so a subsequent
pull of the still-attached node returns 0 frames (and leaves it untouched)
even before the opportunistic cleanup removes it. -/
theorem c10_drop_silences_node (ch : AudioChannelInner) (mx : AudioMixerInner)
    (listener listener' : Option Unit) (out temp out' temp' : List ℚ) (fc fc' : ℕ) :
    (AudioChannel.drop ch).marked_as_deleted = true
    ∧ (AudioChannel.drop ch).playing = false
    ∧ (AudioChannel.drop ch).read_pcm_frames listener out temp fc =
        .ok (AudioChannel.drop ch, out, temp, 0)
    ∧ (AudioMixer.drop mx).flat.marked_as_deleted = true
    ∧ (AudioMixer.drop mx).is_playing = false
    ∧ (AudioMixer.drop mx).read_pcm_frames listener' out' temp' fc' =
        .ok (AudioMixer.drop mx, out', temp', 0) := by
  cases mx with
  | mk flat chans subs =>
    refine ⟨rfl, rfl, ?_, rfl, rfl, ?_⟩
    · simp [AudioChannel.drop, AudioChannelInner.read_pcm_frames, pure, Except.pure]
    · simp [AudioMixer.drop, AudioMixerInner.read_pcm_frames, AudioMixerInner.flat,
        AudioMixerInner.is_playing, pure, Except.pure]

/-- Claim C8: one iteration of each child loop of
`mix_children_into_buffer` (locks always acquirable in this sequential
model).  First conjunct, the channel loop: the child is pulled iff
`delay ≤ mixer_position < delay + duration` (defaults `delay ?? 0`,
`duration ?? pcm_length`); an active child is asked for exactly
`min frame_count ((delay + duration) - mixer_position)` frames; a producing
child's output is additively accumulated into the mixer's accumulator and
counted in `mixed_sources`; an inactive child leaves the loop state
unchanged.  Second conjunct, the nested-mixer loop: the same scheduling
window and read count with the natural-length default
`duration ?? max_length`, the same additive accumulation and
`mixed_sources` count threaded into the rest of the loop, and an inactive
mixer child passing the state through untouched. -/
theorem c8_child_scheduling (mixer_position frame_count channel_count : ℕ)
    (s : MixLoopState) (e : AudioChannelEntry) (m : AudioMixerInner)
    (d du : Option ℕ) (rest : AudioMixerEntryList)
    (buffer intermediate temp : List ℚ) (mixed_sources : ℕ) :
    (mixChannelEntryStep mixer_position frame_count channel_count s e =
      if e.delay.getD 0 ≤ mixer_position ∧
          mixer_position < e.delay.getD 0 + e.duration.getD e.channel.reader.pcm_length then
        match e.channel.read_pcm_frames none s.intermediate s.temp
            (min frame_count
              ((e.delay.getD 0 + e.duration.getD e.channel.reader.pcm_length) -
                mixer_position)) with
        | .error err => .error err
        | .ok (ch', inter', temp', produced) =>
          .ok { entries := s.entries ++ [{ e with channel := ch' }]
                buffer := if 0 < produced then
                    array_fast_add_value_f32 inter' s.buffer (produced * channel_count)
                  else s.buffer
                intermediate := inter'
                temp := temp'
                mixed_sources := if 0 < produced then s.mixed_sources + 1
                  else s.mixed_sources }
      else
        .ok { s with entries := s.entries ++ [e] })
    ∧ (mixSubsLoop mixer_position frame_count channel_count buffer intermediate temp
        mixed_sources (.cons m d du rest) =
      if d.getD 0 ≤ mixer_position ∧
          mixer_position < d.getD 0 + du.getD m.max_length then
        match m.read_pcm_frames none intermediate temp
            (min frame_count ((d.getD 0 + du.getD m.max_length) - mixer_position)) with
        | .error err => .error err
        | .ok (m', inter', temp', produced) =>
          match mixSubsLoop mixer_position frame_count channel_count
              (if 0 < produced then
                  array_fast_add_value_f32 inter' buffer (produced * channel_count)
                else buffer)
              inter' temp'
              (if 0 < produced then mixed_sources + 1 else mixed_sources) rest with
          | .error err => .error err
          | .ok (rest', b, i, t, ms) => .ok (.cons m' d du rest', b, i, t, ms)
      else
        match mixSubsLoop mixer_position frame_count channel_count buffer intermediate
            temp mixed_sources rest with
        | .error err => .error err
        | .ok (rest', b, i, t, ms) => .ok (.cons m d du rest', b, i, t, ms)) := by
  constructor
  · by_cases h : e.delay.getD 0 ≤ mixer_position ∧
        mixer_position < e.delay.getD 0 + e.duration.getD e.channel.reader.pcm_length
    · rw [if_pos h]
      have hg : ¬(mixer_position < e.delay.getD 0 ∨
          mixer_position ≥ e.delay.getD 0 + e.duration.getD e.channel.reader.pcm_length) := by
        omega
      unfold mixChannelEntryStep
      rw [if_neg hg]
      cases hr : e.channel.read_pcm_frames none s.intermediate s.temp
          (min frame_count
            ((e.delay.getD 0 + e.duration.getD e.channel.reader.pcm_length) -
              mixer_position)) with
      | error err => simp only [hr]
      | ok r =>
        obtain ⟨ch2, inter2, temp2, produced⟩ := r
        simp only [hr]
        by_cases hp : produced > 0
        · simp [hp]
        · simp [hp]
    · rw [if_neg h]
      have hg : mixer_position < e.delay.getD 0 ∨
          mixer_position ≥ e.delay.getD 0 + e.duration.getD e.channel.reader.pcm_length := by
        omega
      unfold mixChannelEntryStep
      rw [if_pos hg]
  · by_cases h : d.getD 0 ≤ mixer_position ∧
        mixer_position < d.getD 0 + du.getD m.max_length
    · rw [if_pos h]
      have hg : ¬(mixer_position < d.getD 0 ∨
          mixer_position ≥ d.getD 0 + du.getD m.max_length) := by
        omega
      simp only [mixSubsLoop]
      rw [if_neg hg]
    · rw [if_neg h]
      have hg : mixer_position < d.getD 0 ∨
          mixer_position ≥ d.getD 0 + du.getD m.max_length := by
        omega
      simp only [mixSubsLoop]
      rw [if_pos hg]

/-- Shifting the accumulator out of a `max` fold. -/
theorem foldl_max_shift (l : List ℕ) : ∀ a : ℕ, List.foldl max a l = max a (listMax l) := by
  induction l with
  | nil => intro a; simp [listMax]
  | cons x t ih =>
    intro a
    simp only [listMax, List.foldl_cons] at *
    rw [ih (max a x), ih (max 0 x)]
    simp [Nat.zero_max, Nat.max_assoc]

/-- `listMax` of a cons. -/
theorem listMax_cons (x : ℕ) (l : List ℕ) : listMax (x :: l) = max x (listMax l) := by
  simp only [listMax, List.foldl_cons]
  rw [foldl_max_shift l (max 0 x), Nat.zero_max]
  simp only [listMax]

/-- The channel fold of `compute_mixer_length` computes the running max of the
channel ends and the running or of the looping flags. -/
theorem chan_fold_spec (chans : List AudioChannelEntry) : ∀ (a : ℕ) (b : Bool),
    List.foldl (fun (acc : ℕ × Bool) e =>
        (max acc.1 (e.delay.getD 0 + e.duration.getD e.channel.reader.pcm_length),
          acc.2 || e.channel.is_looping)) (a, b) chans =
      (max a (listMax (chans.map chanEnd)),
        b || chans.any fun e => e.channel.is_looping) := by
  induction chans with
  | nil => intro a b; simp [listMax]
  | cons e t ih =>
    intro a b
    simp only [List.foldl_cons, List.map_cons, List.any_cons, listMax_cons, ih]
    rw [chanEnd]
    refine Prod.ext ?_ ?_
    · simp [Nat.max_assoc]
    · simp [Bool.or_assoc]

/-- The nested-mixer fold of `compute_mixer_length` computes the running max
of the (recursively computed) mixer-child ends and ors in their recursively
updated `is_infinite` flags. -/
theorem computeSubsLength_spec : ∀ (subs : AudioMixerEntryList) (acc : ℕ × Bool),
    (computeSubsLength subs acc).2 =
      (max acc.1 (listMax (subs.toList.map subEnd)),
        acc.2 || subs.toList.any fun p => (computeMixerLength p.1).1.is_infinite)
  | .nil, acc => by
    simp [computeSubsLength, AudioMixerEntryList.toList, listMax]
  | .cons m d du rest, acc => by
    have ih := computeSubsLength_spec rest
    cases hcm : computeMixerLength m with
    | mk m' nested_length =>
      simp only [computeSubsLength, AudioMixerEntryList.toList, List.map_cons, List.any_cons,
        listMax_cons, hcm, subEnd, ih]
      refine Prod.ext ?_ ?_
      · simp [Nat.max_assoc]
      · simp [Bool.or_assoc]

/-- Claim C9: `compute_mixer_length` returns the maximum over children of
`delay + (duration ?? natural length)` — `pcm_length` for channel children,
the recursively computed length for mixer children — and stores it in
`max_length`; `is_infinite` is set exactly when some channel child is looping
or some (recursively updated) mixer child is infinite; and an infinite mixer's
`get_length` is `u64::MAX`.  Locks are always acquirable in this sequential
model, matching the claim's premise. -/
theorem c9_compute_length_infinite_get_length (m : AudioMixerInner) :
    (computeMixerLength m).2 =
      max (listMax (m.chans.map chanEnd)) (listMax (m.subs.toList.map subEnd))
    ∧ (computeMixerLength m).1.max_length = (computeMixerLength m).2
    ∧ ((computeMixerLength m).1.is_infinite = true ↔
      (∃ e ∈ m.chans, e.channel.is_looping = true)
      ∨ ∃ p ∈ m.subs.toList, (computeMixerLength p.1).1.is_infinite = true)
    ∧ ((computeMixerLength m).1.is_infinite = true →
      AudioMixer.get_length (computeMixerLength m).1 = u64MAX) := by
  cases m with
  | mk flat chans subs =>
    cases hcs : computeSubsLength subs
        (List.foldl (fun (acc : ℕ × Bool) e =>
          (max acc.1 (e.delay.getD 0 + e.duration.getD e.channel.reader.pcm_length),
            acc.2 || e.channel.is_looping)) (0, false) chans) with
    | mk subs' acc' =>
      obtain ⟨A, B⟩ := acc'
      have hacc : A = max (listMax (chans.map chanEnd)) (listMax (subs.toList.map subEnd))
          ∧ B = ((chans.any fun e => e.channel.is_looping) ||
            subs.toList.any fun p => (computeMixerLength p.1).1.is_infinite) := by
        have h1 := computeSubsLength_spec subs
          (List.foldl (fun (acc : ℕ × Bool) e =>
            (max acc.1 (e.delay.getD 0 + e.duration.getD e.channel.reader.pcm_length),
              acc.2 || e.channel.is_looping)) (0, false) chans)
        rw [hcs, chan_fold_spec] at h1
        simpa [Nat.zero_max, Prod.ext_iff] using h1
      obtain ⟨hA, hB⟩ := hacc
      subst hA
      subst hB
      have hcompute : computeMixerLength (.mk flat chans subs) =
          (.mk { flat with
              max_length := max (listMax (chans.map chanEnd)) (listMax (subs.toList.map subEnd))
              is_infinite := ((chans.any fun e => e.channel.is_looping) ||
                subs.toList.any fun p => (computeMixerLength p.1).1.is_infinite) } chans subs',
            max (listMax (chans.map chanEnd)) (listMax (subs.toList.map subEnd))) := by
        simp only [computeMixerLength, hcs]
      rw [AudioMixerInner.chans, AudioMixerInner.subs, hcompute]
      refine ⟨rfl, rfl, ?_, ?_⟩
      · simp [AudioMixerInner.is_infinite, AudioMixerInner.flat, List.any_eq_true]
      · intro h
        simp only [AudioMixerInner.is_infinite, AudioMixerInner.flat] at h
        simp [AudioMixer.get_length, AudioMixerInner.is_infinite, AudioMixerInner.flat, h]

/-- Witness for claim C9 at a concrete nested mixer (a looping channel child
inside a nested mixer): the infinite mixer's `get_length` is `u64::MAX`. -/
theorem c9_witness :
    AudioMixer.get_length (computeMixerLength nestedMixer).1 = u64MAX :=
  (c9_compute_length_infinite_get_length nestedMixer).2.2.2 (by decide)

/-- The copy helper preserves the destination length. -/
theorem array_fast_copy_f32_length (src dst : List ℚ) (src_offset dst_offset length : ℕ) :
    (array_fast_copy_f32 src dst src_offset dst_offset length).length = dst.length := by
  simp [array_fast_copy_f32]

/-- Claim C7 amended: `seek(p)` succeeds exactly when `p < reader.pcm_length`,
provided the FX warm-up read fits its scratch buffer (the scratch holds
`input_latency * 2` samples, enough only when the source has at most 2
channels or the latency is 0 — the C7 counterexample shows a 4-channel FX
source failing an in-bounds seek; `fx.channels = reader.channels` holds by
construction, `AudioFX::new(reader.channels, ..)`).  On success the stored
`position` is `p` (and with no FX the whole state change is exactly
position + reader seek); beyond the length the result is `SeekOutOfBounds`,
the Rust function returning before mutating anything. -/
theorem c7_amended_seek_bounds (ch : AudioChannelInner) (p : ℕ)
    (hwarm : ∀ fx, ch.fx = some fx → fx.input_latency = 0 ∨ ch.reader.channels ≤ 2)
    (hfxch : ∀ fx, ch.fx = some fx → fx.channels = ch.reader.channels) :
    ((∃ ch', AudioChannel.seek ch p = .ok ch') ↔ p < ch.reader.pcm_length)
    ∧ (∀ ch', AudioChannel.seek ch p = .ok ch' →
        ch'.position = p ∧
        (ch.fx = none →
          ch' = { ch with position := p, reader := { ch.reader with position := p } }))
    ∧ (p ≥ ch.reader.pcm_length → AudioChannel.seek ch p = .error .SeekOutOfBounds) := by
  by_cases hp : p < ch.reader.pcm_length
  · have hnotge : ¬(p ≥ ch.reader.pcm_length) := by omega
    have hseek : ch.reader.seek p = .ok { ch.reader with position := p } := by
      simp [AudioReader.seek, Nat.le_of_lt hp]
    have main : ∃ ch', AudioChannel.seek ch p = .ok ch' ∧ ch'.position = p ∧
        (ch.fx = none →
          ch' = { ch with position := p, reader := { ch.reader with position := p } }) := by
      cases hfx : ch.fx with
      | none =>
        have heval : AudioChannel.seek ch p = .ok { ch with
            position := p, reader := { ch.reader with position := p } } := by
          simp [AudioChannel.seek, AudioChannelInner.seek, hnotge, hseek, hfx, pure, Except.pure]
          try rfl
        exact ⟨_, heval, rfl, fun _ => by simp [hfx]⟩
      | some fx₀ =>
        by_cases hlat : fx₀.input_latency = 0
        · have heval : AudioChannel.seek ch p = .ok { ch with
              position := p, reader := { ch.reader with position := p } } := by
            simp [AudioChannel.seek, AudioChannelInner.seek, hnotge, hseek, hfx,
              AudioFX.get_input_latency, hlat, pure, Except.pure]
            try rfl
          exact ⟨_, heval, rfl, fun hnone => by simp [hfx] at hnone⟩
        · have hch : ch.reader.channels ≤ 2 := by
            rcases hwarm fx₀ hfx with h0 | h2
            · exact absurd h0 hlat
            · exact h2
          have hfxch' : fx₀.channels = ch.reader.channels := hfxch fx₀ hfx
          have hmul : fx₀.input_latency * ch.reader.channels ≤ fx₀.input_latency * 2 :=
            Nat.mul_le_mul_left _ hch
          have hsz1 : ¬(fx₀.input_latency * 2 < fx₀.input_latency * ch.reader.channels) := by
            omega
          have hsz2 : ¬(fx₀.input_latency * 2 < fx₀.input_latency * fx₀.channels) := by
            rw [hfxch']
            omega
          have heval : AudioChannel.seek ch p = .ok { ch with
              position := p
              reader := { ch.reader with
                position := p + min fx₀.input_latency (ch.reader.pcm_length - p) }
              fx := some { fx₀ with frame_available := (fx₀.input_latency : ℤ) } } := by
            simp [AudioChannel.seek, AudioChannelInner.seek, hnotge, hseek, hfx,
              AudioFX.get_input_latency, hlat, Nat.pos_of_ne_zero hlat, AudioReader.read, hsz1,
              AudioFX.pre_process, array_fast_copy_f32_length, hsz2, pure, Except.pure]
            try rfl
          exact ⟨_, heval, rfl, fun hnone => by simp [hfx] at hnone⟩
    obtain ⟨ch', hch', hpos, hnone⟩ := main
    refine ⟨⟨fun _ => hp, fun _ => ⟨_, hch'⟩⟩, ?_, fun hge => absurd hge hnotge⟩
    intro ch'' h
    rw [hch'] at h
    cases h
    exact ⟨hpos, hnone⟩
  · have hge : p ≥ ch.reader.pcm_length := by omega
    have heval : AudioChannel.seek ch p = .error .SeekOutOfBounds := by
      simp [AudioChannel.seek, hge]
    refine ⟨⟨?_, fun h => absurd h hp⟩, ?_, fun _ => heval⟩
    · rintro ⟨ch', h⟩
      rw [heval] at h
      cases h
    · intro ch' h
      rw [heval] at h
      cases h

/-- Witness for the amended claim C7 at a concrete input: an out-of-bounds
seek on a plain mono channel fails with `SeekOutOfBounds`. -/
theorem c7_amended_witness :
    AudioChannel.seek (monoChannel 8 [0, 0]) 5 = .error .SeekOutOfBounds :=
  (c7_amended_seek_bounds (monoChannel 8 [0, 0]) 5
    (by intro fx h; simp [monoChannel] at h)
    (by intro fx h; simp [monoChannel] at h)).2.2 (by decide)

/-- Decomposition of a successful `Except` bind: the intermediate value
exists and both steps succeed. -/
theorem except_bind_eq_ok {ε α β : Type _} (x : Except ε α) (f : α → Except ε β)
    (b : β) : x >>= f = Except.ok b ↔ ∃ a, x = Except.ok a ∧ f a = Except.ok b := by
  cases x <;> simp [Bind.bind, Except.bind]

/-- `mapError` preserves success. -/
theorem except_mapError_eq_ok {ε ε' α : Type _} (x : Except ε α) (f : ε → ε')
    (b : α) : x.mapError f = Except.ok b ↔ x = Except.ok b := by
  cases x <;> simp [Except.mapError]

/-- A `pure` computation succeeds with exactly its value. -/
theorem except_pure_eq_ok {ε α : Type _} (x b : α) :
    (pure x : Except ε α) = Except.ok b ↔ x = b := by
  simp [pure, Except.pure]

set_option maxHeartbeats 3200000 in
/-- Claim C2 amended: every successful pull of a playing mixer returns exactly
`frame_count` (whatever the FX and resampler state), and with FX disabled and
the resampler bypassed `mixer_position` advances by exactly `frame_count`.
In general the advance equals the resampler/FX input count and lives inside
`mix_children_into_buffer`; the C2 counterexample shows the FX path at
`available_frames = 0` skipping the advance entirely, and a pull that mixes
no sources leaves the caller's buffer untouched rather than zero-padded. -/
theorem c2_amended_mixer_advance (flat : MixerFlat) (chans : List AudioChannelEntry)
    (subs : AudioMixerEntryList) (listener : Option Unit) (out temp : List ℚ)
    (frame_count : ℕ) (m' : AudioMixerInner) (o t : List ℚ) (n : ℕ)
    (hplay : flat.is_playing = true)
    (h : (AudioMixerInner.mk flat chans subs).read_pcm_frames listener out temp frame_count =
      .ok (m', o, t, n)) :
    n = frame_count ∧
    (flat.fx = none → flat.resampler.bypass_mode = true →
      m'.mixer_position = flat.mixer_position + frame_count) := by
  cases hfx : flat.fx with
  | some fx₀ =>
    simp only [AudioMixerInner.read_pcm_frames, hplay, hfx, Bool.not_true,
      Bool.false_eq_true, if_false, reduceIte] at h
    refine ⟨?_, fun hne => Option.noConfusion hne⟩
    simp only [except_bind_eq_ok, except_mapError_eq_ok, ite_eq_iff,
      except_pure_eq_ok, Except.ok.injEq, Prod.mk.injEq] at h
    tauto
  | none =>
    by_cases hbp : flat.resampler.bypass_mode = true
    · simp only [AudioMixerInner.read_pcm_frames, hplay, hfx,
        AudioResampler.get_required_input, hbp, Bool.not_true, if_true, if_false,
        Except.toOption, Option.getD, ite_true, ite_false, Bool.false_eq_true,
        reduceIte, Except.instMonad, Except.bind, Except.mapError, pure,
        Except.pure] at h
      repeat' split at h
      all_goals
        first
          | exact Except.noConfusion h
          | (simp only [Except.ok.injEq, Prod.mk.injEq] at h
             obtain ⟨hm, ho, ht, hn⟩ := h
             exact ⟨hn.symm, fun _ _ => by
               rw [← hm]
               simp [AudioMixerInner.mixer_position, AudioMixerInner.flat]⟩)
    · simp only [AudioMixerInner.read_pcm_frames, hplay, hfx, Bool.not_true,
        if_true, if_false, Except.toOption, Option.getD, ite_true, ite_false,
        Bool.false_eq_true, reduceIte, Except.instMonad, Except.bind,
        Except.mapError, pure, Except.pure] at h
      repeat' split at h
      all_goals
        first
          | exact Except.noConfusion h
          | (simp only [Except.ok.injEq, Prod.mk.injEq] at h
             obtain ⟨hm, ho, ht, hn⟩ := h
             exact ⟨hn.symm, fun _ hbp' => absurd hbp' hbp⟩)


/-- Witness for the amended claim C2 at a concrete input: an empty playing
mixer (no FX, bypassed resampler) pulled for 2 frames returns 2 and advances
`mixer_position` from 0 to 2. -/
theorem c2_amended_witness :
    (2 : ℕ) = 2 ∧
    (AudioMixerInner.mk
        { monoMixerFlat with mixer_position := 2, is_playing := false }
        [] .nil).mixer_position = monoMixerFlat.mixer_position + 2 :=
  (fun r => ⟨r.1, r.2 rfl rfl⟩)
    (c2_amended_mixer_advance monoMixerFlat [] .nil none (List.replicate 2 0)
      (List.replicate 8 0) 2
      (AudioMixerInner.mk
        { monoMixerFlat with mixer_position := 2, is_playing := false } [] .nil)
      (List.replicate 2 0) (List.replicate 8 0) 2 rfl
      (by with_unfolding_all rfl))

/-- Preservation of the amended-C1 invariant by one `read_pcm_frames` call
(no listener). -/
theorem c1_read_step (ch : AudioChannelInner) (out temp : List ℚ) (fc : ℕ)
    (ch' : AudioChannelInner) (o t : List ℚ) (n : ℕ)
    (hinv : ChannelInv ch)
    (h : ch.read_pcm_frames none out temp fc = .ok (ch', o, t, n)) :
    ChannelInv ch' := by
  obtain ⟨hfx, hbp, hlp, hpos, hle⟩ := hinv
  simp only [AudioChannelInner.read_pcm_frames, hfx, AudioResampler.get_required_input,
    hbp, Bool.not_true, if_true, if_false, Except.toOption, Option.getD, ite_true,
    ite_false, Bool.false_eq_true, reduceIte] at h
  by_cases hpl : ch.playing
  · simp only [hpl, Bool.not_true, Bool.false_eq_true, if_false, reduceIte] at h
    cases hr : ch.reader.read out fc with
    | error e =>
      rw [hr] at h
      simp [Except.instMonad, Except.bind, pure, Except.pure] at h
    | ok r =>
      obtain ⟨r', buf', n₀⟩ := r
      rw [hr] at h
      simp only [Except.instMonad, Except.bind, pure, Except.pure] at h
      -- facts about the reader read
      simp only [AudioReader.read] at hr
      split at hr
      · exact absurd hr (by simp)
      · split at hr
        · exact absurd hr (by simp)
        · simp only [Except.ok.injEq, Prod.mk.injEq] at hr
          obtain ⟨hr', hbuf', hn₀⟩ := hr
          cases hg : ch.gainer.process buf' temp n₀ with
          | error e =>
            rw [hg] at h
            simp [Except.instMonad, Except.bind, pure, Except.pure] at h
          | ok t₁ =>
            rw [hg] at h
            simp only [Except.instMonad, Except.bind, pure, Except.pure] at h
            cases hpn : ch.panner.process t₁ buf' n₀ with
            | error e =>
              rw [hpn] at h
              simp [Except.instMonad, Except.bind, pure, Except.pure] at h
            | ok o₁ =>
              rw [hpn] at h
              simp only [Except.instMonad, Except.bind, pure, Except.pure] at h
              by_cases hlt : n₀ < fc
              · simp only [hlt, if_true, ite_true, hlp, Bool.false_eq_true, if_false,
                  reduceIte, Option.isSome_none, Bool.false_eq_true, and_false,
                  if_false] at h
                simp only [Except.ok.injEq, Prod.mk.injEq] at h
                obtain ⟨hc, _, _, hn⟩ := h
                subst hc
                subst hr'
                subst hn₀
                refine ⟨by simp, by simp [hbp], by simp [hlp], by simp [hpos], ?_⟩
                simp
                omega
              · simp only [hlt, if_false, ite_false, reduceIte, Option.isSome_none,
                  Bool.false_eq_true, and_false] at h
                simp only [Except.ok.injEq, Prod.mk.injEq] at h
                obtain ⟨hc, _, _, hn⟩ := h
                subst hc
                subst hr'
                subst hn₀
                refine ⟨by simp, by simp [hbp], by simp [hlp], by simp [hpos], ?_⟩
                simp
                omega
  · simp only [hpl, Bool.not_false, if_true, ite_true, Bool.false_eq_true,
      reduceIte] at h
    simp only [pure, Except.pure, Except.ok.injEq, Prod.mk.injEq] at h
    obtain ⟨hc, _, _, _⟩ := h
    subst hc
    exact ⟨hfx, hbp, hlp, hpos, hle⟩


/-- Preservation of the amended-C1 invariant by any single public channel
operation other than `set_looping(true)`. -/
theorem c1_step (ch : AudioChannelInner) (op : ChannelOp) (ch' : AudioChannelInner)
    (hop : op ≠ .set_looping true)
    (hinv : ChannelInv ch)
    (h : applyChannelOp ch op = .ok ch') :
    ChannelInv ch' := by
  obtain ⟨hfx, hbp, hlp, hpos, hle⟩ := hinv
  cases op with
  | play =>
    simp only [applyChannelOp, AudioChannel.play] at h
    by_cases hp : ch.position = 0
    · simp only [hp, if_true, ite_true, reduceIte] at h
      simp only [AudioChannelInner.seek, hfx] at h
      by_cases hL : 0 ≥ ch.reader.pcm_length
      · simp only [hL, if_true, ite_true, reduceIte, throw, throwThe,
          MonadExceptOf.throw] at h
        simp [Except.instMonad, Except.bind, pure, Except.pure] at h
      · simp only [hL, if_false, ite_false, reduceIte, AudioReader.seek,
          Nat.zero_le, if_true, ite_true] at h
        simp only [Except.instMonad, Except.bind, pure, Except.pure,
          Except.ok.injEq] at h
        subst h
        exact ⟨by simp, by simp [hbp], by simp [hlp], by simp, by simp⟩
    · simp only [hp, if_false, ite_false, reduceIte, Except.ok.injEq] at h
      subst h
      exact ⟨hfx, hbp, hlp, hpos, hle⟩
  | stop =>
    simp only [applyChannelOp, AudioChannel.stop, Except.ok.injEq] at h
    subst h
    exact ⟨hfx, hbp, hlp, hpos, hle⟩
  | seek p =>
    simp only [applyChannelOp, AudioChannel.seek] at h
    by_cases hp : p ≥ ch.reader.pcm_length
    · simp [hp] at h
    · have hple : p ≤ ch.reader.pcm_length := by omega
      simp only [hp, if_false, ite_false, reduceIte] at h
      simp only [AudioChannelInner.seek, hfx, hp, if_false, ite_false, reduceIte,
        AudioReader.seek, hple, if_true, ite_true] at h
      simp only [Except.instMonad, Except.bind, pure, Except.pure,
        Except.ok.injEq] at h
      subst h
      exact ⟨by simp, by simp [hbp], by simp [hlp], by simp, by simp [hple]⟩
  | set_looping b =>
    cases b with
    | true => exact absurd rfl hop
    | false =>
      simp only [applyChannelOp, AudioChannel.set_looping, Except.ok.injEq] at h
      subst h
      exact ⟨hfx, hbp, rfl, hpos, hle⟩
  | read fc =>
    simp only [applyChannelOp] at h
    cases hr : ch.read_pcm_frames none
        (List.replicate (fc * ch.reader.channels) (0 : ℚ))
        (List.replicate (fc * ch.reader.channels) (0 : ℚ)) fc with
    | error e =>
      rw [hr] at h
      simp [Except.map] at h
    | ok r =>
      obtain ⟨c, o, t, n⟩ := r
      rw [hr] at h
      simp only [Except.map, Except.ok.injEq] at h
      subst h
      exact c1_read_step ch _ _ fc c o t n ⟨hfx, hbp, hlp, hpos, hle⟩ hr

/-- Preservation of the amended-C1 invariant along any operation sequence
that never switches looping on. -/
theorem c1_inv_run : ∀ (ops : List ChannelOp) (ch ch' : AudioChannelInner),
    ChannelOp.set_looping true ∉ ops → ChannelInv ch →
    runChannelOps ch ops = .ok ch' → ChannelInv ch'
  | [], ch, ch', _, hinv, h => by
    simp only [runChannelOps, List.foldlM, pure, Except.pure, Except.ok.injEq] at h
    subst h
    exact hinv
  | op :: ops, ch, ch', hops, hinv, h => by
    simp only [runChannelOps, List.foldlM] at h
    cases hstep : applyChannelOp ch op with
    | error e =>
      rw [hstep] at h
      simp [Except.instMonad, Except.bind] at h
    | ok c₁ =>
      rw [hstep] at h
      simp only [Except.instMonad, Except.bind] at h
      have hop : op ≠ ChannelOp.set_looping true := by
        intro he
        subst he
        exact hops (List.mem_cons_self _ _)
      exact c1_inv_run ops c₁ ch' (fun hm => hops (List.mem_cons_of_mem op hm))
        (c1_step ch op c₁ hop ⟨hinv.1, hinv.2.1, hinv.2.2.1, hinv.2.2.2.1,
          hinv.2.2.2.2⟩ hstep) h


/-- Claim C1 amended: the position invariant `0 ≤ position ≤ pcm_length`
holds for every channel with FX disabled and the resampler bypassed across
any sequence of public operations that never enables looping (the position
stays coupled to the reader's).  The original claim is refuted by
`c1_looping_wrap_pushes_position_past_length`: on a looping channel the
end-of-stream wrap seeks the reader back to 0 but keeps adding
`frames_readed` to `position`, pushing it past `pcm_length`. -/
theorem c1_amended_position_in_bounds (ch : AudioChannelInner) (ops : List ChannelOp)
    (ch' : AudioChannelInner)
    (hops : ChannelOp.set_looping true ∉ ops)
    (hinv : ChannelInv ch)
    (h : runChannelOps ch ops = .ok ch') :
    0 ≤ ch'.position ∧ ch'.position ≤ ch'.reader.pcm_length := by
  obtain ⟨_, _, _, hpos, hle⟩ := c1_inv_run ops ch ch' hops hinv h
  exact ⟨Nat.zero_le _, by rw [hpos]; exact hle⟩

/-- Witness for the amended claim C1 at a concrete input: one 1-frame read
on a 2-frame mono channel lands at position 1 ≤ 2. -/
theorem c1_amended_witness :
    0 ≤ ({ monoChannel 1 [0, 0] with
        position := 1
        reader := { monoReader [0, 0] with position := 1 } } : AudioChannelInner).position ∧
    ({ monoChannel 1 [0, 0] with
        position := 1
        reader := { monoReader [0, 0] with position := 1 } } : AudioChannelInner).position ≤
      ({ monoChannel 1 [0, 0] with
        position := 1
        reader := { monoReader [0, 0] with position := 1 } } : AudioChannelInner).reader.pcm_length :=
  c1_amended_position_in_bounds (monoChannel 1 [0, 0]) [ChannelOp.read 1]
    ({ monoChannel 1 [0, 0] with
        position := 1
        reader := { monoReader [0, 0] with position := 1 } })
    (by decide) ⟨rfl, rfl, rfl, rfl, by decide⟩ (by with_unfolding_all rfl)

end EstAudio
